import Mathlib

/-!
Verification of the identicon package: a shallow embedding of the Go
source (grid generation from an MD5 digest, option validation, icon
construction, rendering, file saving) together with theorems about it.

Go byte values are modelled as `Nat` (all digest bytes are < 256, but the
algorithms only use parity and indexing, so no modular bound is needed),
Go `[]bool` as `List Bool`, Go `color.Color` values as a record of the
four 8-bit channels, and the raster image as a function from pixel
coordinates to colors.  The MD5 digest itself is library code
(`crypto/md5`); all theorems quantify over an arbitrary 16-byte digest,
which is how the specification states its claims as well.
-/

/-- Model of Go `color.RGBA` (and of any `color.Color` after conversion to
8-bit channels): four channels, each conceptually in 0..255. -/
structure GoColor where
  r : Nat
  g : Nat
  b : Nat
  a : Nat
deriving DecidableEq

/-- Go `color.White` (opaque white), the default background in `New`. -/
def whiteColor : GoColor := ⟨255, 255, 255, 255⟩

/-- The zero value of the pixels of a fresh `image.NewRGBA` canvas
(transparent black), before the background fill. -/
def zeroColor : GoColor := ⟨0, 0, 0, 0⟩

/-- The `chunk` computed at the top of `createPatternGrid`:
`chunk := size/2; if size%2 == 1 { chunk++ }`, i.e. `ceil(size/2)`. -/
def chunkOf (size : Nat) : Nat :=
  size / 2 + (if size % 2 = 1 then 1 else 0)

/-- The data-buffer loop of `createPatternGrid`, one constructor per loop
iteration.  Go:
`data = append(data, i.checksum[j]); if j == len(i.checksum)-1 { j = 0 }; ...; j++`
so the index after appending `checksum[j]` is `1` when `j` was the last
index, else `j+1`.  The loop runs until `len(data) == target`, appending
exactly one byte per iteration, so it performs exactly `target`
iterations; `target` is used as the recursion measure. -/
def buildDataAux (cs : List Nat) : Nat → Nat → List Nat
  | _, 0 => []
  | j, k + 1 =>
    cs.getD j 0 :: buildDataAux cs (if j = cs.length - 1 then 1 else j + 1) k

/-- The working buffer `data` built inside `createPatternGrid`: the loop
starts at checksum index `j = 0` and stops when the buffer has
`target = chunk * size` bytes. -/
def buildData (cs : List Nat) (target : Nat) : List Nat :=
  buildDataAux cs 0 target

/-- The inner row loop of `createPatternGrid`:
`for j, m := 0, 0; j < len(r); j++` with body
`if j < len(c) { r[j] = int(c[j])%2 == 0; continue };
 r[len(r)-1-m] = int(c[m])%2 == 0; m++`.
`steps` is the number of remaining iterations (`len(r) - j`). -/
def fillRow (c : List Nat) : Nat → Nat → Nat → List Bool → List Bool
  | 0, _, _, r => r
  | steps + 1, j, m, r =>
    if j < c.length then
      fillRow c steps (j + 1) m (r.set j (c.getD j 0 % 2 == 0))
    else
      fillRow c steps (j + 1) (m + 1) (r.set (r.length - 1 - m) (c.getD m 0 % 2 == 0))

/-- `createPatternGrid`: builds `chunk` and the cyclic `data` buffer, then
fills each row `row` of the `size*size` grid from the slice
`data[row*chunk : row*chunk+chunk]`.  The Go code writes through disjoint
row slices `grid[row*size : row*size+size]` of a single flat slice; the
grid is therefore the concatenation of the rows. -/
def createPatternGrid (cs : List Nat) (size : Nat) : List Bool :=
  let chunk := chunkOf size
  let data := buildData cs (chunk * size)
  ((List.range size).map fun row =>
    fillRow ((data.drop (row * chunk)).take chunk) size 0 0
      (List.replicate size false)).flatten

/-- Reads the grid cell at `(row, col)` of a row-major `size × size` grid. -/
def cell (grid : List Bool) (size row col : Nat) : Bool :=
  grid.getD (row * size + col) false

/-- The digest index actually read for byte `k` of the working buffer when
the digest has 16 bytes: the first pass reads indices `0..15`, and every
wrap-around resumes at index `1` (the reset to `0` in the loop is followed
by the unconditional `j++`), cycling with period 15. -/
def wrapIndex (k : Nat) : Nat :=
  if k < 16 then k else (k - 16) % 15 + 1

theorem buildDataAux_length (cs : List Nat) :
    ∀ n j, (buildDataAux cs j n).length = n := by
  intro n
  induction n with
  | zero => intro j; rfl
  | succ k ih => intro j; simp [buildDataAux, ih]

theorem buildData_length (cs : List Nat) (target : Nat) :
    (buildData cs target).length = target :=
  buildDataAux_length cs target 0

theorem buildDataAux_getD (cs : List Nat) (h16 : cs.length = 16) :
    ∀ k j n, k < n → j < 16 →
      (buildDataAux cs j n).getD k 0 =
        cs.getD (if k < 16 - j then j + k else (k - (16 - j)) % 15 + 1) 0 := by
  intro k
  induction k with
  | zero =>
    intro j n hk hj
    obtain ⟨n', rfl⟩ := Nat.exists_eq_succ_of_ne_zero (by omega : n ≠ 0)
    have hcond : (0 : Nat) < 16 - j := by omega
    simp [buildDataAux, hcond]
  | succ k ih =>
    intro j n hk hj
    obtain ⟨n', rfl⟩ := Nat.exists_eq_succ_of_ne_zero (by omega : n ≠ 0)
    have hk' : k < n' := by omega
    have hj' : (if j = cs.length - 1 then 1 else j + 1) < 16 := by
      rw [h16]; split <;> omega
    have hrec := ih (if j = cs.length - 1 then 1 else j + 1) n' hk' hj'
    simp only [buildDataAux, List.getD_cons_succ]
    rw [hrec]
    congr 1
    by_cases hj15 : j = cs.length - 1
    · simp only [if_pos hj15]
      split <;> split <;> omega
    · simp only [if_neg hj15]
      have hne : j ≠ 15 := by omega
      split <;> split <;> omega

theorem buildData_getD (cs : List Nat) (h16 : cs.length = 16)
    (k target : Nat) (hk : k < target) :
    (buildData cs target).getD k 0 = cs.getD (wrapIndex k) 0 := by
  have h := buildDataAux_getD cs h16 k 0 target hk (by omega)
  simpa [buildData, wrapIndex] using h

theorem chunkOf_bounds (n : Nat) (h : 1 ≤ n) :
    1 ≤ chunkOf n ∧ chunkOf n ≤ n ∧ n ≤ 2 * chunkOf n ∧ 2 * chunkOf n ≤ n + 1 := by
  unfold chunkOf; split <;> omega

theorem getD_set {α : Type} (d : α) (r : List α) (i k : Nat) (v : α) :
    (r.set i v).getD k d = if i = k ∧ i < r.length then v else r.getD k d := by
  simp only [List.getD_eq_getElem?_getD, List.getElem?_set]
  by_cases h1 : i = k
  · subst h1
    by_cases h2 : i < r.length
    · simp [h2]
    · simp [h2, List.getElem?_eq_none (by omega : r.length ≤ i)]
  · simp [h1]

theorem fillRow_length (c : List Nat) :
    ∀ steps j m r, (fillRow c steps j m r).length = r.length := by
  intro steps
  induction steps with
  | zero => intro j m r; rfl
  | succ s ih =>
    intro j m r
    simp only [fillRow]
    split <;> rw [ih] <;> simp [List.length_set]

theorem fillRow_getD (c : List Nat) (chunk size : Nat) (hc : c.length = chunk)
    (h1 : chunk ≤ size) (h2 : size ≤ 2 * chunk) :
    ∀ steps j m r, steps + j = size → m = j - chunk → r.length = size →
      ∀ k, k < size →
        (fillRow c steps j m r).getD k false =
          if k < chunk then
            (if k < j then r.getD k false else (c.getD k 0 % 2 == 0))
          else
            (if size - 1 - k < m then r.getD k false
             else (c.getD (size - 1 - k) 0 % 2 == 0)) := by
  intro steps
  induction steps with
  | zero =>
    intro j m r hsj hm hr k hk
    simp only [fillRow]
    by_cases hkc : k < chunk
    · rw [if_pos hkc, if_pos (by omega : k < j)]
    · rw [if_neg hkc, if_pos (by omega : size - 1 - k < m)]
  | succ s ih =>
    intro j m r hsj hm hr k hk
    simp only [fillRow]
    by_cases hj : j < c.length
    · rw [if_pos hj]
      rw [ih (j + 1) m _ (by omega) (by omega) (by simp [List.length_set, hr]) k hk]
      simp only [getD_set, hr]
      by_cases hkc : k < chunk
      · simp only [if_pos hkc]
        by_cases hkj : k < j
        · rw [if_pos (show k < j + 1 by omega), if_pos hkj,
              if_neg (show ¬(j = k ∧ j < size) by omega)]
        · by_cases hkj1 : k < j + 1
          · have hjk : j = k := by omega
            rw [if_pos hkj1, if_neg hkj, if_pos ⟨hjk, by omega⟩, hjk]
          · rw [if_neg hkj1, if_neg hkj]
      · simp only [if_neg hkc]
        by_cases hlt : size - 1 - k < m
        · rw [if_pos hlt, if_pos hlt, if_neg (show ¬(j = k ∧ j < size) by omega)]
        · rw [if_neg hlt, if_neg hlt]
    · rw [if_neg hj]
      rw [ih (j + 1) (m + 1) _ (by omega) (by omega)
            (by simp [List.length_set, hr]) k hk]
      simp only [getD_set, List.length_set, hr]
      by_cases hkc : k < chunk
      · simp only [if_pos hkc]
        rw [if_pos (show k < j + 1 by omega), if_pos (show k < j by omega),
            if_neg (show ¬(size - 1 - m = k ∧ size - 1 - m < size) by omega)]
      · simp only [if_neg hkc]
        by_cases hlt : size - 1 - k < m
        · rw [if_pos (show size - 1 - k < m + 1 by omega), if_pos hlt,
              if_neg (show ¬(size - 1 - m = k ∧ size - 1 - m < size) by omega)]
        · by_cases heq : size - 1 - k < m + 1
          · rw [if_pos heq, if_neg hlt,
                if_pos (show size - 1 - m = k ∧ size - 1 - m < size by omega)]
            have hms : m = size - 1 - k := by omega
            rw [hms]
          · rw [if_neg heq, if_neg hlt]

theorem flatten_getD (size : Nat) :
    ∀ (rows : List (List Bool)), (∀ l ∈ rows, l.length = size) →
      ∀ row col, row < rows.length → col < size →
        rows.flatten.getD (row * size + col) false
          = (rows.getD row []).getD col false := by
  intro rows
  induction rows with
  | nil => intro _ row col hrow _; simp at hrow
  | cons l ls ih =>
    intro h row col hrow hcol
    have hl : l.length = size := h l (by simp)
    cases row with
    | zero =>
      simp only [Nat.zero_mul, Nat.zero_add, List.flatten_cons, List.getD_cons_zero]
      rw [List.getD_eq_getElem?_getD, List.getElem?_append_left (by omega),
          ← List.getD_eq_getElem?_getD]
    | succ row' =>
      have hidx : (row' + 1) * size + col = l.length + (row' * size + col) := by
        rw [hl]; ring
      simp only [List.flatten_cons, List.getD_cons_succ]
      rw [hidx, List.getD_eq_getElem?_getD,
          List.getElem?_append_right (Nat.le_add_right _ _),
          Nat.add_sub_cancel_left, ← List.getD_eq_getElem?_getD]
      exact ih (fun x hx => h x (by simp [hx])) row' col (by simpa using hrow) hcol

theorem cell_createPatternGrid (cs : List Nat) (n : Nat)
    (hn1 : 1 ≤ n) (row col : Nat) (hrow : row < n) (hcol : col < n) :
    cell (createPatternGrid cs n) n row col =
      ((buildData cs (chunkOf n * n)).getD
        (row * chunkOf n + (if col < chunkOf n then col else n - 1 - col)) 0 % 2 == 0) := by
  obtain ⟨hch1, hchn, hn2c, _⟩ := chunkOf_bounds n hn1
  have hdlen : (buildData cs (chunkOf n * n)).length = chunkOf n * n :=
    buildData_length cs _
  have hslice_len : ∀ r : Nat, r < n →
      (((buildData cs (chunkOf n * n)).drop (r * chunkOf n)).take (chunkOf n)).length
        = chunkOf n := by
    intro r hr
    rw [List.length_take, List.length_drop, hdlen]
    have hmul : r * chunkOf n + chunkOf n ≤ chunkOf n * n := by
      calc r * chunkOf n + chunkOf n = (r + 1) * chunkOf n := by ring
        _ ≤ n * chunkOf n := Nat.mul_le_mul_right _ (by omega)
        _ = chunkOf n * n := Nat.mul_comm _ _
    omega
  unfold cell createPatternGrid
  rw [flatten_getD n _ ?hlen row col ?hrowlt hcol]
  case hlen =>
    intro l hl
    obtain ⟨r, _, rfl⟩ := List.mem_map.mp hl
    rw [fillRow_length, List.length_replicate]
  case hrowlt => simpa using hrow
  have hrowval : ((List.range n).map (fun r =>
      fillRow (((buildData cs (chunkOf n * n)).drop (r * chunkOf n)).take (chunkOf n))
        n 0 0 (List.replicate n false))).getD row []
      = fillRow (((buildData cs (chunkOf n * n)).drop (row * chunkOf n)).take (chunkOf n))
        n 0 0 (List.replicate n false) := by
    rw [List.getD_eq_getElem?_getD, List.getElem?_map, List.getElem?_range hrow]
    rfl
  rw [hrowval]
  rw [fillRow_getD _ (chunkOf n) n (hslice_len row hrow) hchn hn2c n 0 0 _
      (by omega) (by omega) (by rw [List.length_replicate]) col hcol]
  have hidx_lt : (if col < chunkOf n then col else n - 1 - col) < chunkOf n := by
    split <;> omega
  have hslice_getD :
      (((buildData cs (chunkOf n * n)).drop (row * chunkOf n)).take (chunkOf n)).getD
          (if col < chunkOf n then col else n - 1 - col) 0
        = (buildData cs (chunkOf n * n)).getD
            (row * chunkOf n + (if col < chunkOf n then col else n - 1 - col)) 0 := by
    rw [List.getD_eq_getElem?_getD, List.getElem?_take, if_pos hidx_lt,
        List.getElem?_drop, ← List.getD_eq_getElem?_getD]
  by_cases hc : col < chunkOf n
  · rw [if_pos hc, if_neg (by omega : ¬ col < 0), ← hslice_getD, if_pos hc]
  · rw [if_neg hc, if_neg (by omega : ¬ n - 1 - col < 0), ← hslice_getD, if_neg hc]

/-- Write trace of the inner row loop of `createPatternGrid`: the same
recursion as `fillRow`, recording for each loop iteration the row index it
writes and which branch wrote it (`false` = left-fill branch `r[j] = ...`,
`true` = mirror branch `r[len(r)-1-m] = ...`).  `size` is `len(r)`, which
`List.set` keeps constant. -/
def fillRowWrites (c : List Nat) (size : Nat) : Nat → Nat → Nat → List (Nat × Bool)
  | 0, _, _ => []
  | steps + 1, j, m =>
    if j < c.length then
      (j, false) :: fillRowWrites c size steps (j + 1) m
    else
      (size - 1 - m, true) :: fillRowWrites c size steps (j + 1) (m + 1)

theorem fillRowWrites_eq (c : List Nat) (size : Nat) (hc : c.length ≤ size) :
    ∀ steps j m, steps + j = size → m + c.length = max j c.length →
      fillRowWrites c size steps j m =
        ((List.range' j (c.length - j)).map fun t => (t, false)) ++
        ((List.range' m (steps - (c.length - j))).map fun t => (size - 1 - t, true)) := by
  intro steps
  induction steps with
  | zero =>
    intro j m hsj hm
    have h0 : c.length - j = 0 := by omega
    simp [fillRowWrites, h0]
  | succ s ih =>
    intro j m hsj hm
    simp only [fillRowWrites]
    by_cases hj : j < c.length
    · rw [if_pos hj]
      rw [ih (j + 1) m (by omega) (by omega)]
      have hsplit : c.length - j = (c.length - (j + 1)) + 1 := by omega
      have hcount : s + 1 - (c.length - j) = s - (c.length - (j + 1)) := by omega
      rw [hcount, hsplit, List.range'_succ]
      simp
    · rw [if_neg hj]
      rw [ih (j + 1) (m + 1) (by omega) (by omega)]
      have h0 : c.length - j = 0 := by omega
      have h0' : c.length - (j + 1) = 0 := by omega
      rw [h0, h0']
      have hcount : s + 1 - 0 = (s - 0) + 1 := by omega
      rw [hcount, List.range'_succ]
      simp

theorem xor_one_mod_two (b : Nat) : (b ^^^ 1) % 2 = 1 - b % 2 := by
  norm_num
  omega

theorem parity_flip (b : Nat) : ((b ^^^ 1) % 2 == 0) = !(b % 2 == 0) := by
  rw [xor_one_mod_two]
  rcases Nat.mod_two_eq_zero_or_one b with h | h <;> rw [h] <;> decide

/-- A concrete 16-byte digest used to instantiate theorems: bytes 0..15. -/
def sampleDigest : List Nat := [0, 1, 2, 3, 4, 5, 6, 7, 8, 9, 10, 11, 12, 13, 14, 15]

/-- `sampleDigest` with its first byte's least-significant bit flipped. -/
def flippedDigest : List Nat := [1, 1, 2, 3, 4, 5, 6, 7, 8, 9, 10, 11, 12, 13, 14, 15]

/-- C1 counterexample: with digest bytes `0,1,...,15` and grid size `n = 6`
(buffer length `chunk*n = 18 > 16`), byte 16 of the working buffer built by
`createPatternGrid`'s data loop is digest byte 1 (the wrap-around resumes at
index 1), not digest byte `16 mod 16 = 0` as the claim states. -/
theorem c1_mod16_counterexample :
    (buildData sampleDigest (chunkOf 6 * 6)).getD 16 0 ≠
      sampleDigest.getD (16 % 16) 0 := by
  decide

/-- C1 (amended): for every 16-byte digest and every grid size `n ∈ [5,20]`,
the working buffer built by `createPatternGrid` is exactly `ceil(n/2)*n`
bytes long, with no off-by-one truncation; its byte `k` is the digest byte
at index `k` for `k < 16`, and whenever the digest is exhausted reading
resumes at digest index 1 (not 0), cycling through indices `1..15` with
period 15 (`wrapIndex`). -/
theorem c1_buffer_length_and_wrap (cs : List Nat) (n : Nat)
    (h16 : cs.length = 16) (_hn5 : 5 ≤ n) (_hn20 : n ≤ 20) :
    (buildData cs (chunkOf n * n)).length = chunkOf n * n ∧
    ∀ k, k < chunkOf n * n →
      (buildData cs (chunkOf n * n)).getD k 0 = cs.getD (wrapIndex k) 0 :=
  ⟨buildData_length cs _, fun k hk => buildData_getD cs h16 k _ hk⟩

/-- Witness for C1 at digest `0..15`, `n = 6`, buffer byte `k = 17`. -/
theorem c1_buffer_length_and_wrap_witness :
    (buildData sampleDigest (chunkOf 6 * 6)).length = chunkOf 6 * 6 ∧
    (buildData sampleDigest (chunkOf 6 * 6)).getD 17 0 =
      sampleDigest.getD (wrapIndex 17) 0 :=
  ⟨(c1_buffer_length_and_wrap sampleDigest 6 (by decide) (by decide) (by decide)).1,
   (c1_buffer_length_and_wrap sampleDigest 6 (by decide) (by decide)
      (by decide)).2 17 (by decide)⟩

/-- C2: for every 16-byte digest and grid size `n ∈ [5,20]`, the grid built
by `createPatternGrid` is horizontally mirrored
(`grid[row*n + c] = grid[row*n + (n-1-c)]` for all valid `row, c`), and when
`n` is odd the single center column of each row is written exactly once, by
the left-fill branch of the row loop, never by the mirror branch
(write trace `fillRowWrites`, branch flag `false` = left fill). -/
theorem c2_mirror_and_center_write (cs : List Nat) (n : Nat)
    (_h16 : cs.length = 16) (hn5 : 5 ≤ n) (hn20 : n ≤ 20) :
    (∀ row col, row < n → col < n →
      cell (createPatternGrid cs n) n row col
        = cell (createPatternGrid cs n) n row (n - 1 - col)) ∧
    (n % 2 = 1 → ∀ c : List Nat, c.length = chunkOf n →
      (fillRowWrites c n n 0 0).filter (fun w => w.1 == (n - 1) / 2)
        = [((n - 1) / 2, false)]) := by
  constructor
  · intro row col hrow hcol
    rw [cell_createPatternGrid cs n (by omega) row col hrow hcol,
        cell_createPatternGrid cs n (by omega) row (n - 1 - col) hrow (by omega)]
    obtain ⟨hc1, hc2, hc3, hc4⟩ := chunkOf_bounds n (by omega)
    have hidx : (if col < chunkOf n then col else n - 1 - col)
        = (if n - 1 - col < chunkOf n then n - 1 - col else n - 1 - (n - 1 - col)) := by
      split_ifs <;> omega
    rw [hidx]
  · intro hodd c hclen
    have hcle : c.length ≤ n := by
      rw [hclen]; exact (chunkOf_bounds n (by omega)).2.1
    rw [fillRowWrites_eq c n hcle n 0 0 (by omega) (by simp)]
    rw [hclen]
    interval_cases n <;> first | omega | decide

/-- Witness for C2 at digest `0..15`, `n = 5` (odd), `row = 1`, `col = 0`,
and for the center-write part the row-seed slice `[3,4,5]` of that grid. -/
theorem c2_mirror_and_center_write_witness :
    (cell (createPatternGrid sampleDigest 5) 5 1 0
      = cell (createPatternGrid sampleDigest 5) 5 1 (5 - 1 - 0)) ∧
    (fillRowWrites [3, 4, 5] 5 5 0 0).filter (fun w => w.1 == (5 - 1) / 2)
      = [((5 - 1) / 2, false)] :=
  ⟨(c2_mirror_and_center_write sampleDigest 5 (by decide) (by decide)
      (by decide)).1 1 0 (by decide) (by decide),
   (c2_mirror_and_center_write sampleDigest 5 (by decide) (by decide)
      (by decide)).2 (by decide) [3, 4, 5] (by decide)⟩

/-- C3: for every 16-byte digest, grid size `n ∈ [5,20]`, row `r < n` and
left-half-or-center column `j < chunk = ceil(n/2)`, the grid cell `(r, j)`
is true iff its source seed byte `data[r*chunk + j]` is even; and flipping
the least-significant bit of that byte (XOR with 1, realized by any second
digest whose working buffer has that flipped byte at the same position)
flips the cell. -/
theorem c3_parity_rule (cs : List Nat) (n : Nat) (_h16 : cs.length = 16)
    (hn5 : 5 ≤ n) (hn20 : n ≤ 20) (row j : Nat)
    (hrow : row < n) (hj : j < chunkOf n) :
    (cell (createPatternGrid cs n) n row j
      = ((buildData cs (chunkOf n * n)).getD (row * chunkOf n + j) 0 % 2 == 0)) ∧
    ∀ cs₂ : List Nat,
      (buildData cs₂ (chunkOf n * n)).getD (row * chunkOf n + j) 0
        = (buildData cs (chunkOf n * n)).getD (row * chunkOf n + j) 0 ^^^ 1 →
      cell (createPatternGrid cs₂ n) n row j
        = !(cell (createPatternGrid cs n) n row j) := by
  have hcol : j < n := lt_of_lt_of_le hj (chunkOf_bounds n (by omega)).2.1
  constructor
  · rw [cell_createPatternGrid cs n (by omega) row j hrow hcol, if_pos hj]
  · intro cs₂ hflip
    rw [cell_createPatternGrid cs₂ n (by omega) row j hrow hcol, if_pos hj,
        cell_createPatternGrid cs n (by omega) row j hrow hcol, if_pos hj,
        hflip, parity_flip]

/-- Witness for C3 at digest `0..15`, `n = 5`, cell `(0,0)`, with the
LSB-flipped digest `flippedDigest` for the flip part. -/
theorem c3_parity_rule_witness :
    (cell (createPatternGrid sampleDigest 5) 5 0 0
      = ((buildData sampleDigest (chunkOf 5 * 5)).getD (0 * chunkOf 5 + 0) 0 % 2 == 0)) ∧
    cell (createPatternGrid flippedDigest 5) 5 0 0
      = !(cell (createPatternGrid sampleDigest 5) 5 0 0) :=
  ⟨(c3_parity_rule sampleDigest 5 (by decide) (by decide) (by decide) 0 0
      (by decide) (by decide)).1,
   (c3_parity_rule sampleDigest 5 (by decide) (by decide) (by decide) 0 0
      (by decide) (by decide)).2 flippedDigest (by decide)⟩

/-- Model of the `Icon` struct.  `img` is the rendered raster as a function
from pixel coordinates to colors (set by `drawPattern`); `checksum` is the
MD5 digest of the file name, which `createChecksum` computes with the
`crypto/md5` library and is therefore a parameter of the model. -/
structure Icon where
  size : Nat
  pixels : Nat
  file : String
  checksum : List Nat
  grid : List Bool
  img : Nat → Nat → GoColor
  foreground : GoColor
  background : GoColor

/-- Model of Go `type Option func(*Icon) error`: a state transformer on the
icon together with an optional error message. -/
def OptionFn : Type := Icon → Icon × Option String

/-- `defaultPixels = 250`. -/
def defaultPixels : Nat := 250
/-- `MinPixels = 100`. -/
def MinPixels : Nat := 100
/-- `MaxPixels = 500`. -/
def MaxPixels : Nat := 500
/-- `defaultSize = 5`. -/
def defaultSize : Nat := 5
/-- `MinSize = 5`. -/
def MinSize : Nat := 5
/-- `MaxSize = 20`. -/
def MaxSize : Nat := 20

/-- `WithPixels`: validates `MinPixels ≤ p ≤ MaxPixels` (Go `int`, so the
argument is modelled as `Int`); on success stores the value, on failure
returns the error without touching the icon. -/
def WithPixels (p : Int) : OptionFn := fun i =>
  if p < (MinPixels : Int) then
    (i, some ("pixel length needs to be greater than " ++ toString MinPixels))
  else if p > (MaxPixels : Int) then
    (i, some ("pixel length needs to be less than " ++ toString MaxPixels))
  else
    ({ i with pixels := p.toNat }, none)

/-- `WithSize`: validates `MinSize ≤ s ≤ MaxSize`; on success stores the
value, on failure returns the error without touching the icon. -/
def WithSize (s : Int) : OptionFn := fun i =>
  if s < (MinSize : Int) then
    (i, some ("grid size can not be less than " ++ toString MinSize))
  else if s > (MaxSize : Int) then
    (i, some ("grid size can not exceed max of " ++ toString MaxSize))
  else
    ({ i with size := s.toNat }, none)

/-- `WithBackgroundColor`: Go passes an interface value that may be `nil`,
modelled as `Option GoColor`. -/
def WithBackgroundColor (c : Option GoColor) : OptionFn := fun i =>
  match c with
  | none => (i, some "can not set background to nil color, please provide a valid color")
  | some col => ({ i with background := col }, none)

/-- `WithForegroundColor`: Go passes an interface value that may be `nil`,
modelled as `Option GoColor`. -/
def WithForegroundColor (c : Option GoColor) : OptionFn := fun i =>
  match c with
  | none => (i, some "can not set foreground color to nil, please provide a valid color")
  | some col => ({ i with foreground := col }, none)

/-- `WithComplementaryBackground`: sets the background to the complement of
the icon's current foreground.  `complementary` (color.go) is float64 HSL
arithmetic, so it is abstracted as a function parameter here; only when and
on what it is called matters for the constructor-level claims. -/
def WithComplementaryBackground (complementary : GoColor → GoColor) : OptionFn := fun i =>
  ({ i with background := complementary i.foreground }, none)

/-- The option loop of `New`: applies each option in order to the (mutable)
icon, collecting the error messages of the failing ones in order. -/
def applyOptions : List OptionFn → Icon → Icon × List String
  | [], i => (i, [])
  | o :: rest, i =>
    let r1 := o i
    let r2 := applyOptions rest r1.1
    (r2.1, match r1.2 with | none => r2.2 | some m => m :: r2.2)

/-- The aggregated error `New` reports when options failed:
`msg := "\nOption errors:"`, then `msg = Sprintf("%s\n%s", msg, e)` per
error, wrapped in `Errorf("Config error: %s", msg)`. -/
def configErrMsg (errs : List String) : String :=
  "Config error: " ++ errs.foldl (fun m e => m ++ "\n" ++ e) "\nOption errors:"

/-- The icon as `New` initialises it before applying options: struct
literal (defaults and white background, remaining fields at their zero
values) followed by the checksum assignment and the default foreground
taken from the first three checksum bytes. -/
def initIcon (name : String) (checksum : List Nat) : Icon :=
  { file := name
    size := defaultSize
    pixels := defaultPixels
    background := whiteColor
    checksum := checksum
    foreground :=
      { r := checksum.getD 0 0, g := checksum.getD 1 0, b := checksum.getD 2 0, a := 255 }
    grid := []
    img := fun _ _ => zeroColor }

/-- One `draw.Draw(base, block, &image.Uniform{c}, ZP, Src)` call: paints
`c` over the intersection of the rectangle `[x1,x2) × [y1,y2)` with the
base image's bounds `[0,pixels)²`. -/
def drawOver (pixels : Nat) (img : Nat → Nat → GoColor) (x1 y1 x2 y2 : Nat)
    (c : GoColor) : Nat → Nat → GoColor :=
  fun x y =>
    if x1 ≤ x ∧ x < x2 ∧ y1 ≤ y ∧ y < y2 ∧ x < pixels ∧ y < pixels then c
    else img x y

/-- `drawPattern`: fills a fresh `pixels × pixels` canvas (zero-valued
outside its bounds) with the background, then for each true grid cell `j`
paints a `length × length` block of foreground at
`((j%size)*length + offset, (j/size)*length + offset)`, where
`offset = (pixels % size) / 2` and `length = pixels / size`. -/
def drawPattern (pixels size : Nat) (foreground background : GoColor)
    (grid : List Bool) : Nat → Nat → GoColor :=
  let base := fun x y => if x < pixels ∧ y < pixels then background else zeroColor
  let offset := (pixels % size) / 2
  let length := pixels / size
  (List.range grid.length).foldl
    (fun img j =>
      if grid.getD j false then
        drawOver pixels img ((j % size) * length + offset) ((j / size) * length + offset)
          ((j % size) * length + offset + length) ((j / size) * length + offset + length)
          foreground
      else img)
    base

/-- `New`: rejects an empty name, initialises the icon, applies all
options collecting their errors, and either reports the aggregated errors
(no icon, no grid or image built) or builds the grid and renders the
image. -/
def New (name : String) (checksum : List Nat) (options : List OptionFn) :
    Except String Icon :=
  if name.length = 0 then
    Except.error ("invalid icon name entered: " ++ name)
  else
    let res := applyOptions options (initIcon name checksum)
    if res.2 = [] then
      let grid := createPatternGrid res.1.checksum res.1.size
      Except.ok { res.1 with
        grid := grid
        img := drawPattern res.1.pixels res.1.size res.1.foreground res.1.background grid }
    else
      Except.error (configErrMsg res.2)

/-- C5: `WithPixels` succeeds (returns no error) iff its argument is in
`[100, 500]`, and `WithSize` succeeds iff its argument is in `[5, 20]`;
in particular pixel sizes 99 and 501 are rejected with a validation error
while 100 and 500 are accepted, and grid sizes 4 and 21 are rejected while
5 and 20 are accepted. -/
theorem c5_boundary_validation (p s : Int) (i : Icon) :
    ((WithPixels p i).2 = none ↔ 100 ≤ p ∧ p ≤ 500) ∧
    ((WithSize s i).2 = none ↔ 5 ≤ s ∧ s ≤ 20) := by
  constructor
  · unfold WithPixels MinPixels MaxPixels
    split_ifs <;> simp <;> omega
  · unfold WithSize MinSize MaxSize
    split_ifs <;> simp <;> omega

/-- C6: whenever at least one option fails, `New` still evaluates every
option (the error list collected by `applyOptions` covers the whole option
list), aggregates all the error messages into one `Config error` report,
and returns that error with no icon; the grid/render stage of `New` is
never reached in that case. -/
theorem c6_all_or_nothing (name : String) (checksum : List Nat)
    (options : List OptionFn) (hname : name.length ≠ 0)
    (herr : (applyOptions options (initIcon name checksum)).2 ≠ []) :
    New name checksum options
      = Except.error (configErrMsg (applyOptions options (initIcon name checksum)).2) := by
  unfold New
  rw [if_neg hname, if_neg herr]

/-- Witness for C6 with name `"a"` and the two failing options
`WithPixels 99` and `WithSize 21`. -/
theorem c6_all_or_nothing_witness :
    New "a" sampleDigest [WithPixels 99, WithSize 21]
      = Except.error (configErrMsg
          (applyOptions [WithPixels 99, WithSize 21] (initIcon "a" sampleDigest)).2) :=
  c6_all_or_nothing "a" sampleDigest [WithPixels 99, WithSize 21]
    (by decide) (by decide)

/-- C10: options are applied in the order passed to `New`, and
`WithComplementaryBackground` reads the foreground configured at the
moment it runs; hence `New name (WithComplementaryBackground)
(WithForegroundColor f)` yields a background that is the complement of the
digest-derived default foreground (first three digest bytes), not the
complement of `f`, while the foreground ends up `f`. -/
theorem c10_option_order (name : String) (checksum : List Nat) (f : GoColor)
    (complementary : GoColor → GoColor) (hname : name.length ≠ 0) :
    (New name checksum [WithComplementaryBackground complementary,
        WithForegroundColor (some f)]).map (fun i => (i.background, i.foreground))
      = Except.ok
          (complementary
            { r := checksum.getD 0 0, g := checksum.getD 1 0,
              b := checksum.getD 2 0, a := 255 }, f) := by
  unfold New
  rw [if_neg hname]
  rfl

/-- Witness for C10 at name `"a"`, digest `0..15`, `f = (9,9,9,255)` and
the identity function in place of `complementary`. -/
theorem c10_option_order_witness :
    (New "a" sampleDigest [WithComplementaryBackground id,
        WithForegroundColor (some ⟨9, 9, 9, 255⟩)]).map
          (fun i => (i.background, i.foreground))
      = Except.ok (⟨0, 1, 2, 255⟩, ⟨9, 9, 9, 255⟩) :=
  c10_option_order "a" sampleDigest ⟨9, 9, 9, 255⟩ id (by decide)

/-- Whether the block square of grid index `j` (column `j % size`, row
`j / size`, side `len`, inset `off`) covers the pixel `(x, y)`. -/
def inBlock (size len off j x y : Nat) : Bool :=
  decide ((j % size) * len + off ≤ x) && decide (x < (j % size) * len + off + len) &&
  decide ((j / size) * len + off ≤ y) && decide (y < (j / size) * len + off + len)

/-- Whether some true cell among the first `n` grid indices covers the
pixel `(x, y)`; loop invariant of the drawing loop. -/
def coveredUpTo (grid : List Bool) (size len off n x y : Nat) : Bool :=
  (List.range n).any fun j => grid.getD j false && inBlock size len off j x y

/-- Specification-side predicate for C7: some true cell `(row, col)` of the
grid has its filled square of side `len` with top-left corner
`(col*len + off, row*len + off)` covering the pixel `(x, y)`. -/
def coveredBy (grid : List Bool) (size len off x y : Nat) : Bool :=
  (List.range size).any fun row => (List.range size).any fun col =>
    grid.getD (row * size + col) false &&
    (decide (col * len + off ≤ x) && decide (x < col * len + off + len) &&
     decide (row * len + off ≤ y) && decide (y < row * len + off + len))

theorem drawPattern_loop (pixels size : Nat) (fg : GoColor) (grid : List Bool)
    (base : Nat → Nat → GoColor) (len off : Nat) :
    ∀ n x y, x < pixels → y < pixels →
      ((List.range n).foldl
        (fun img j =>
          if grid.getD j false then
            drawOver pixels img ((j % size) * len + off) ((j / size) * len + off)
              ((j % size) * len + off + len) ((j / size) * len + off + len) fg
          else img) base) x y
      = if coveredUpTo grid size len off n x y then fg else base x y := by
  intro n
  induction n with
  | zero => intro x y hx hy; simp [coveredUpTo]
  | succ k ih =>
    intro x y hx hy
    have hcov : coveredUpTo grid size len off (k + 1) x y
        = (coveredUpTo grid size len off k x y
            || (grid.getD k false && inBlock size len off k x y)) := by
      unfold coveredUpTo
      rw [List.range_succ, List.any_append]
      simp
    rw [List.range_succ, List.foldl_append, List.foldl_cons, List.foldl_nil, hcov]
    cases hg : grid.getD k false with
    | false =>
      rw [if_neg (by simp [hg])]
      simp only [Bool.false_and, Bool.or_false]
      exact ih x y hx hy
    | true =>
      rw [if_pos (by simp [hg])]
      unfold drawOver
      cases hb : inBlock size len off k x y with
      | false =>
        have hnot : ¬((k % size) * len + off ≤ x ∧ x < (k % size) * len + off + len ∧
            (k / size) * len + off ≤ y ∧ y < (k / size) * len + off + len ∧
            x < pixels ∧ y < pixels) := by
          simp only [inBlock, Bool.and_eq_false_iff] at hb
          simp only [not_and]
          intro h1 h2 h3 h4 _ _
          rcases hb with ((hb | hb) | hb) | hb <;> simp at hb <;> omega
        rw [if_neg hnot]
        simp only [Bool.and_false, Bool.or_false]
        exact ih x y hx hy
      | true =>
        simp only [inBlock, Bool.and_eq_true, decide_eq_true_eq] at hb
        rw [if_pos ⟨hb.1.1.1, hb.1.1.2, hb.1.2, hb.2, hx, hy⟩]
        simp

theorem coveredUpTo_eq_coveredBy (grid : List Bool) (size len off x y : Nat)
    (hsize : 0 < size) :
    coveredUpTo grid size len off (size * size) x y = coveredBy grid size len off x y := by
  rw [Bool.eq_iff_iff]
  unfold coveredUpTo coveredBy inBlock
  simp only [List.any_eq_true, List.mem_range, Bool.and_eq_true, decide_eq_true_eq]
  constructor
  · rintro ⟨j, hj, hcell, hcond⟩
    have hsplit : j / size * size + j % size = j := by
      have h := Nat.div_add_mod j size
      rw [Nat.mul_comm] at h
      exact h
    exact ⟨j / size, Nat.div_lt_iff_lt_mul hsize |>.mpr hj, j % size,
      Nat.mod_lt _ hsize, by rw [hsplit]; exact hcell, hcond⟩
  · rintro ⟨row, hrow, col, hcol, hcell, hcond⟩
    have hmod : (row * size + col) % size = col := by
      rw [Nat.add_comm, Nat.add_mul_mod_self_right, Nat.mod_eq_of_lt hcol]
    have hdiv : (row * size + col) / size = row := by
      rw [Nat.add_comm, Nat.add_mul_div_right _ _ hsize, Nat.div_eq_of_lt hcol]
      omega
    have hbound : row * size + col < size * size := by
      calc row * size + col < (row + 1) * size := by
            have : (row + 1) * size = row * size + size := by ring
            omega
        _ ≤ size * size := Nat.mul_le_mul_right size (by omega)
    refine ⟨row * size + col, hbound, hcell, ?_⟩
    rw [hmod, hdiv]
    exact hcond

/-- C7: for every grid of size `n ∈ [5,20]` with `n*n` cells, pixel size in
`[100,500]`, and colors `fg`, `bg`, the image rendered by `drawPattern` is
a `pixels × pixels` canvas filled with `bg`, on which every true cell
`(row, col)` paints a filled square of side `blockLen = pixels / n` with
top-left corner `(col*blockLen + offset, row*blockLen + offset)` where
`offset = (pixels mod n) / 2`, in `fg`; every pixel not covered by a true
cell's square shows the background. -/
theorem c7_render_blocks (pixels size : Nat) (fg bg : GoColor) (grid : List Bool)
    (hn5 : 5 ≤ size) (_hn20 : size ≤ 20) (_hp1 : 100 ≤ pixels) (_hp2 : pixels ≤ 500)
    (hglen : grid.length = size * size) (x y : Nat) (hx : x < pixels) (hy : y < pixels) :
    drawPattern pixels size fg bg grid x y
      = if coveredBy grid size (pixels / size) ((pixels % size) / 2) x y then fg
        else bg := by
  simp only [drawPattern]
  rw [hglen]
  rw [drawPattern_loop pixels size fg grid _ (pixels / size) ((pixels % size) / 2)
      (size * size) x y hx hy]
  rw [coveredUpTo_eq_coveredBy grid size (pixels / size) ((pixels % size) / 2) x y
      (by omega)]
  by_cases hcov : coveredBy grid size (pixels / size) ((pixels % size) / 2) x y
  · simp [hcov]
  · simp [hcov, hx, hy]

/-- Witness for C7: 100×100 canvas, 5×5 grid with only cell (0,0) true,
evaluated at pixel (5,5) (inside the first block) and at (50,50)
(background). -/
theorem c7_render_blocks_witness :
    (drawPattern 100 5 ⟨1, 2, 3, 255⟩ ⟨4, 5, 6, 255⟩ (true :: List.replicate 24 false) 5 5
      = if coveredBy (true :: List.replicate 24 false) 5 (100 / 5) ((100 % 5) / 2) 5 5
        then ⟨1, 2, 3, 255⟩ else ⟨4, 5, 6, 255⟩) ∧
    (drawPattern 100 5 ⟨1, 2, 3, 255⟩ ⟨4, 5, 6, 255⟩ (true :: List.replicate 24 false) 50 50
      = if coveredBy (true :: List.replicate 24 false) 5 (100 / 5) ((100 % 5) / 2) 50 50
        then ⟨1, 2, 3, 255⟩ else ⟨4, 5, 6, 255⟩) :=
  ⟨c7_render_blocks 100 5 _ _ _ (by decide) (by decide) (by decide) (by decide)
      (by decide) 5 5 (by decide) (by decide),
   c7_render_blocks 100 5 _ _ _ (by decide) (by decide) (by decide) (by decide)
      (by decide) 50 50 (by decide) (by decide)⟩

/-- Result of a `saveFile` call, modelling the file-system effect: the name
of the file created by `os.Create`, the bytes written to it in order, and
the returned error.  The PNG and JPEG encoders (`image/png`, `image/jpeg`
library code) are abstracted as functions from the image to either an
error or the encoded bytes. -/
structure SaveResult where
  fileName : String
  bytes : List Nat
  errMsg : Option String

/-- `saveFile`: creates the file `name` (truncating), then, when `jpg` is
set, writes the JPEG encoding — and, because the function does not return
after a successful JPEG encode, falls through and appends the PNG encoding
to the same file; when `jpg` is not set it writes only the PNG encoding.
`createOk` models whether `os.Create` succeeds. -/
def saveFile (jpegEncode pngEncode : (Nat → Nat → GoColor) → Except String (List Nat))
    (createOk : Bool) (img : Nat → Nat → GoColor) (name : String) (jpg : Bool) :
    SaveResult :=
  if !createOk then
    { fileName := name, bytes := [], errMsg := some ("unable to create file " ++ name) }
  else if jpg then
    match jpegEncode img with
    | Except.error e =>
      { fileName := name, bytes := [], errMsg := some ("issue saving jpeg " ++ e) }
    | Except.ok jb =>
      match pngEncode img with
      | Except.error e =>
        { fileName := name, bytes := jb, errMsg := some ("issue saving png " ++ e) }
      | Except.ok pb =>
        { fileName := name, bytes := jb ++ pb, errMsg := none }
  else
    match pngEncode img with
    | Except.error e =>
      { fileName := name, bytes := [], errMsg := some ("issue saving png " ++ e) }
    | Except.ok pb =>
      { fileName := name, bytes := pb, errMsg := none }

/-- `SaveJPG`: `saveFile(&i.img, i.file+".jpeg", true)`. -/
def SaveJPG (jpegEncode pngEncode : (Nat → Nat → GoColor) → Except String (List Nat))
    (createOk : Bool) (i : Icon) : SaveResult :=
  saveFile jpegEncode pngEncode createOk i.img (i.file ++ ".jpeg") true

/-- `SavePNG`: `saveFile(&i.img, i.file+".png", false)`. -/
def SavePNG (jpegEncode pngEncode : (Nat → Nat → GoColor) → Except String (List Nat))
    (createOk : Bool) (i : Icon) : SaveResult :=
  saveFile jpegEncode pngEncode createOk i.img (i.file ++ ".png") false

/-- C9: when file creation and both encodes succeed, `SaveJPG` creates the
single file `name + ".jpeg"` and writes the JPEG encoding of the image
followed by the PNG encoding of the same image into that same file (the
JPEG branch does not return before the PNG encode runs), while `SavePNG`
writes only the PNG encoding to `name + ".png"`. -/
theorem c9_saveJPG_appends_png (jpegEncode pngEncode :
      (Nat → Nat → GoColor) → Except String (List Nat))
    (i : Icon) (jb pb : List Nat)
    (hj : jpegEncode i.img = Except.ok jb) (hp : pngEncode i.img = Except.ok pb) :
    SaveJPG jpegEncode pngEncode true i
      = { fileName := i.file ++ ".jpeg", bytes := jb ++ pb, errMsg := none } ∧
    SavePNG jpegEncode pngEncode true i
      = { fileName := i.file ++ ".png", bytes := pb, errMsg := none } := by
  unfold SaveJPG SavePNG saveFile
  rw [hj, hp]
  exact ⟨rfl, rfl⟩

/-- Witness for C9 with constant encoders producing bytes `[1]` (JPEG) and
`[2, 3]` (PNG) on the freshly initialised icon named `"x"`. -/
theorem c9_saveJPG_appends_png_witness :
    SaveJPG (fun _ => Except.ok [1]) (fun _ => Except.ok [2, 3]) true (initIcon "x" [])
      = { fileName := "x" ++ ".jpeg", bytes := [1] ++ [2, 3], errMsg := none } ∧
    SavePNG (fun _ => Except.ok [1]) (fun _ => Except.ok [2, 3]) true (initIcon "x" [])
      = { fileName := "x" ++ ".png", bytes := [2, 3], errMsg := none } :=
  c9_saveJPG_appends_png (fun _ => Except.ok [1]) (fun _ => Except.ok [2, 3])
    (initIcon "x" []) [1] [2, 3] rfl rfl
